import Mathlib

/-!
Shallow embedding of the job orchestration and persistence layer of the
PersonaMorph application (character-consistent image generation).

The embedding covers:
* the `GeneratedImage` (job) and `Character` records (`types.ts`),
* the durable image store operations `saveImage`, `getAllImages` and the
  startup recovery sweep `cleanupStuckJobs` (`services/db.ts`),
* the resilience combinators `withTimeout` / `withRetry` and the
  error-message normalizer `getErrorMessage` (`services/geminiService.ts`),
* the orchestrator operations `handleGenerate` (submit) and `processJob`
  (the background pipeline) (`App.tsx`).

Asynchrony is modelled by explicit data: an async operation is a pair of a
settle time and a result; the retry combinator is driven by an oracle giving
the outcome of each attempt; effect ordering (store write vs in-memory
update) is recorded as an explicit event trace.
-/

namespace PersonaMorph

/-- Job lifecycle status, from `GenerationStatus` in `types.ts`. -/
inductive GenerationStatus where
  | processing
  | completed
  | failed
  deriving DecidableEq, Repr

/-- Character profile, from `Character` in `types.ts`. -/
structure Character where
  id : String
  name : String
  hairColor : String
  eyeColor : String
  skinColor : String
  avatarImage : Option String
  deriving DecidableEq, Repr

/-- Job record, from `GeneratedImage` in `types.ts`.  `imageData` and
`errorMessage` are optional fields; `createdAt` is a timestamp. -/
structure GeneratedImage where
  id : String
  characterId : String
  imageData : Option String
  prompt : String
  createdAt : Nat
  status : GenerationStatus
  errorMessage : Option String
  deriving DecidableEq, Repr

/-- A JavaScript value as far as error handling observes it: a native
`Error` instance (with a `message`), a non-null object (with the resolved
optional chain `e.error?.message`, the own `message` field, and its
`JSON.stringify` rendering), or any other value (rendered by
`JSON.stringify`). -/
inductive JsValue where
  | errorInst (message : String)
  | objVal (errMessage : Option String) (message : Option String) (json : String)
  | prim (json : String)
  deriving DecidableEq, Repr

/-- JavaScript truthiness of an optional string field: absent,
`null`/`undefined` and the empty string are falsy. -/
def truthyStr : Option String → Bool
  | some s => !(s == "")
  | none => false

/-- Embedding of `getErrorMessage` from `services/geminiService.ts`:
native errors yield their message; objects yield a truthy nested
`error.message`, else a truthy own `message`, else their JSON rendering;
all other values yield their JSON rendering. -/
def getErrorMessage : JsValue → String
  | .errorInst m => m
  | .objVal em m j =>
      if truthyStr em then em.getD ""
      else if truthyStr m then m.getD ""
      else j
  | .prim j => j

/-- An asynchronous operation, abstracted as the time at which it settles
and the result it settles with. -/
structure AsyncOp (α : Type) where
  settleTime : Nat
  result : Except JsValue α

/-- Embedding of `withTimeout` from `services/geminiService.ts`:
`Promise.race` of the operation against a timer that rejects with
`new Error(errorMessage)` after `ms`.  Whichever settles first wins; the
timer wins only when it fires strictly before the operation settles. -/
def withTimeout {α : Type} (op : AsyncOp α) (ms : Nat) (errorMessage : String) : AsyncOp α :=
  if op.settleTime ≤ ms then op
  else { settleTime := ms, result := Except.error (JsValue.errorInst errorMessage) }

/-- Embedding of `withRetry` from `services/geminiService.ts`.  The fallible
operation is abstracted as an oracle `attempt` giving the outcome of the
attempt with each index; `i` is the index of the next attempt.  Returns the
surfaced result, the total number of attempts made, and the list of backoff
waits performed (in order).  On failure with no retries left the error is
rethrown; otherwise the combinator waits `delayMs` and recurses with the
delay doubled. -/
def withRetry {α : Type} (attempt : Nat → Except JsValue α) (i : Nat)
    (retries : Nat) (delayMs : Nat) : Except JsValue α × Nat × List Nat :=
  match attempt i with
  | .ok a => (.ok a, 1, [])
  | .error e =>
      match retries with
      | 0 => (.error e, 1, [])
      | r + 1 =>
          let rest := withRetry attempt (i + 1) r (delayMs * 2)
          (rest.1, rest.2.1 + 1, delayMs :: rest.2.2)

/-- Retry count used for prompt analysis in `createCharacterPrompt`
(`withRetry(performAnalysis, 2, 1000)`). -/
def createCharacterPromptRetries : Nat := 2

/-- Initial backoff delay (ms) used for prompt analysis in
`createCharacterPrompt`. -/
def createCharacterPromptDelayMs : Nat := 1000

/-- Embedding of `DBService.saveImage` from `services/db.ts`: an IndexedDB
`put` keyed by `id` — it replaces every stored record with the same `id`,
or appends the record when its `id` is not present. -/
def saveImage (store : List GeneratedImage) (img : GeneratedImage) :
    List GeneratedImage :=
  if store.any (fun j => j.id == img.id) then
    store.map (fun j => if j.id == img.id then img else j)
  else
    store ++ [img]

/-- Embedding of `DBService.getAllImages` from `services/db.ts`: reads all
job records and sorts them by `createdAt` descending. -/
def getAllImages (store : List GeneratedImage) : List GeneratedImage :=
  store.insertionSort (fun a b => b.createdAt ≤ a.createdAt)

/-- The overwrite performed by the recovery sweep on a stuck job:
`{...job, status: failed, errorMessage: "Interrupted by page reload"}` —
all other fields are carried over by the spread. -/
def markStuck (job : GeneratedImage) : GeneratedImage :=
  { job with status := .failed, errorMessage := some "Interrupted by page reload" }

/-- The `stuckJobs` selection in `DBService.cleanupStuckJobs`: all read
records whose status is `processing`. -/
def stuckJobs (store : List GeneratedImage) : List GeneratedImage :=
  (getAllImages store).filter (fun img => img.status == GenerationStatus.processing)

/-- Embedding of `DBService.cleanupStuckJobs` from `services/db.ts`: reads
all job records (sorted), selects those with status `processing`, and saves
each back with status `failed` and the interruption error message. -/
def cleanupStuckJobs (store : List GeneratedImage) : List GeneratedImage :=
  (stuckJobs store).foldl (fun s job => saveImage s (markStuck job)) store

/-- An observable persistence effect of the orchestrator: a durable store
write (`db.saveImage`) or an in-memory collection update
(`setGeneratedImages`), tagged with the id of the job record written. -/
inductive Event where
  | storeWrite (id : String)
  | memUpdate (id : String)
  deriving DecidableEq, Repr

/-- The error thrown by `processJob` when the synthesized prompt is empty. -/
def noDescriptionError : String := "Analysis failed: No description generated."

/-- The placeholder prompt of a freshly created job in `handleGenerate`. -/
def pendingPrompt : String := "Pending analysis..."

/-- The message recorded by the `catch` block of `processJob`:
`error instanceof Error ? error.message : "Unknown error"`. -/
def caughtMessage : JsValue → String
  | .errorInst m => m
  | _ => "Unknown error"

/-- The failed job record built in the `catch` block of `processJob`. -/
def failedRecord (jobId : String) (char : Character) (e : JsValue) (now : Nat) :
    GeneratedImage :=
  { id := jobId, characterId := char.id, imageData := none, prompt := "Failed",
    createdAt := now, status := .failed, errorMessage := some (caughtMessage e) }

/-- Result of one run of the background pipeline: the terminal job record it
writes, whether the image-synthesis stage was invoked, and the trace of
persistence effects in the order they were initiated. -/
structure ProcessJobResult where
  record : GeneratedImage
  stage2Called : Bool
  events : List Event
  deriving DecidableEq, Repr

/-- Embedding of `processJob` from `App.tsx`.  The two gateway stages are
abstracted as oracles: `promptStage` is the outcome of
`createCharacterPrompt`, and `imageStage prompt` the outcome of
`generateCharacterImage prompt char.avatarImage`; `now` is the value of
`Date.now()` at the terminal write.  On success the completed record carries
the image and prompt; an empty prompt throws before stage 2; any failure is
caught and written as a failed record.  Both terminal paths save to the
store first and then update the in-memory collection. -/
def processJob (jobId : String) (char : Character)
    (promptStage : Except JsValue String)
    (imageStage : String → Except JsValue String) (now : Nat) : ProcessJobResult :=
  match promptStage with
  | .error e =>
      { record := failedRecord jobId char e now, stage2Called := false,
        events := [.storeWrite jobId, .memUpdate jobId] }
  | .ok prompt =>
      if prompt == "" then
        { record := failedRecord jobId char (JsValue.errorInst noDescriptionError) now,
          stage2Called := false,
          events := [.storeWrite jobId, .memUpdate jobId] }
      else
        match imageStage prompt with
        | .error e =>
            { record := failedRecord jobId char e now, stage2Called := true,
              events := [.storeWrite jobId, .memUpdate jobId] }
        | .ok img =>
            { record := { id := jobId, characterId := char.id, imageData := some img,
                          prompt := prompt, createdAt := now, status := .completed,
                          errorMessage := none },
              stage2Called := true,
              events := [.storeWrite jobId, .memUpdate jobId] }

/-- The application state read and written by `handleGenerate`: the
character list, the current selection, the uploaded source image, the
in-memory job collection, and the durable store. -/
structure AppState where
  characters : List Character
  selectedCharacterId : Option String
  sourceImage : Option String
  generatedImages : List GeneratedImage
  store : List GeneratedImage
  deriving DecidableEq, Repr

/-- The job record created by `handleGenerate`: status `processing`, the
placeholder prompt, `createdAt = now`, no image and no error. -/
def newJobRecord (newJobId : String) (characterId : String) (now : Nat) :
    GeneratedImage :=
  { id := newJobId, characterId := characterId, imageData := none,
    prompt := pendingPrompt, createdAt := now, status := .processing,
    errorMessage := none }

/-- Embedding of `handleGenerate` from `App.tsx`.  Guards: a falsy source
image or selection returns immediately; an unknown selected character id
returns immediately.  Otherwise it creates the new job record, prepends it
to the in-memory collection, then saves it to the store, and launches the
pipeline.  Returns the new state, the trace of persistence effects in
initiation order, and the id of the launched job (if any). -/
def handleGenerate (st : AppState) (newJobId : String) (now : Nat) :
    AppState × List Event × Option String :=
  if !(truthyStr st.sourceImage) || !(truthyStr st.selectedCharacterId) then
    (st, [], none)
  else
    match st.characters.find? (fun c => c.id == st.selectedCharacterId.getD "") with
    | none => (st, [], none)
    | some character =>
        let newJob := newJobRecord newJobId character.id now
        ({ st with generatedImages := newJob :: st.generatedImages,
                   store := saveImage st.store newJob },
         [.memUpdate newJobId, .storeWrite newJobId], some newJobId)

/-- The store-before-memory ordering discipline for a trace of persistence
effects: every in-memory update for the given job id is preceded (or
accompanied) by a store write for that id. -/
def storeBeforeMem (tr : List Event) (id : String) : Prop :=
  ∀ i : Fin tr.length, tr.get i = Event.memUpdate id →
    ∃ j : Fin tr.length, (j : Nat) ≤ (i : Nat) ∧ tr.get j = Event.storeWrite id

/-- The record invariant claimed by the spec: `completed` iff the image
payload is present, and `failed` iff the error message is present. -/
def JobInvariant (j : GeneratedImage) : Prop :=
  (j.status = GenerationStatus.completed ↔ j.imageData.isSome = true) ∧
  (j.status = GenerationStatus.failed ↔ j.errorMessage.isSome = true)

instance (tr : List Event) (id : String) : Decidable (storeBeforeMem tr id) := by
  unfold storeBeforeMem
  infer_instance

instance (j : GeneratedImage) : Decidable (JobInvariant j) := by
  unfold JobInvariant
  infer_instance

/-! Helper lemmas about the store and the recovery sweep. -/

theorem markStuck_id (j : GeneratedImage) : (markStuck j).id = j.id := rfl

theorem markStuck_createdAt (j : GeneratedImage) :
    (markStuck j).createdAt = j.createdAt := rfl

theorem getAllImages_perm (store : List GeneratedImage) :
    List.Perm (getAllImages store) store :=
  List.perm_insertionSort _ store

theorem mem_getAllImages {store : List GeneratedImage} {x : GeneratedImage} :
    x ∈ getAllImages store ↔ x ∈ store :=
  (getAllImages_perm store).mem_iff

/-- Any record of `saveImage store img` is an original record or `img`. -/
theorem mem_saveImage {store : List GeneratedImage} {img x : GeneratedImage}
    (hx : x ∈ saveImage store img) : x ∈ store ∨ x = img := by
  unfold saveImage at hx
  split at hx
  · rcases List.mem_map.1 hx with ⟨y, hy, hxy⟩
    by_cases hid : (y.id == img.id) = true
    · right
      rw [← hxy, if_pos hid]
    · left
      rw [← hxy, if_neg hid]
      exact hy
  · rcases List.mem_append.1 hx with h1 | h1
    · exact Or.inl h1
    · right
      simpa using h1

/-- Any record reached by the recovery fold is an original record or a
`markStuck` overwrite of one of the folded jobs. -/
theorem mem_foldl_save :
    ∀ (l s : List GeneratedImage) (x : GeneratedImage),
      x ∈ l.foldl (fun acc job => saveImage acc (markStuck job)) s →
      x ∈ s ∨ ∃ j ∈ l, x = markStuck j
  | [], _, _, hx => Or.inl hx
  | j :: t, s, x, hx => by
      rcases mem_foldl_save t (saveImage s (markStuck j)) x hx with h | ⟨j', hj', hxj'⟩
      · rcases mem_saveImage h with h1 | h1
        · exact Or.inl h1
        · exact Or.inr ⟨j, List.mem_cons_self _ _, h1⟩
      · exact Or.inr ⟨j', List.mem_cons_of_mem _ hj', hxj'⟩

/-- Any record of the swept store is an original record or the `markStuck`
overwrite of an original `processing` record. -/
theorem mem_cleanup {store : List GeneratedImage} {x : GeneratedImage}
    (hx : x ∈ cleanupStuckJobs store) :
    x ∈ store ∨
      ∃ j, j ∈ store ∧ j.status = GenerationStatus.processing ∧ x = markStuck j := by
  rcases mem_foldl_save (stuckJobs store) store x hx with h | ⟨j, hj, hxj⟩
  · exact Or.inl h
  · rcases List.mem_filter.1 hj with ⟨hmem, hproc⟩
    exact Or.inr ⟨j, mem_getAllImages.1 hmem, by simpa using hproc, hxj⟩

/-- After folding the recovery overwrite over a list of jobs whose ids cover
every `processing` record of the accumulator, no `processing` record
remains. -/
theorem foldl_save_no_processing :
    ∀ (l s : List GeneratedImage),
      (∀ x ∈ s, x.status = GenerationStatus.processing → ∃ j ∈ l, j.id = x.id) →
      ∀ x ∈ l.foldl (fun acc job => saveImage acc (markStuck job)) s,
        x.status ≠ GenerationStatus.processing
  | [], s, hcov, x, hx, hproc => by
      rcases hcov x hx hproc with ⟨j, hj, _⟩
      exact absurd hj (List.not_mem_nil j)
  | j :: t, s, hcov, x, hx, hproc => by
      refine foldl_save_no_processing t (saveImage s (markStuck j)) ?_ x hx hproc
      intro y hy hyproc
      have hykeep : y ∈ s ∧ y.id ≠ j.id := by
        unfold saveImage at hy
        split at hy
        · rcases List.mem_map.1 hy with ⟨z, hz, hzy⟩
          by_cases hid : (z.id == (markStuck j).id) = true
          · rw [← hzy, if_pos hid] at hyproc
            exact absurd hyproc (by simp [markStuck])
          · rw [← hzy, if_neg hid]
            refine ⟨hz, ?_⟩
            simpa [markStuck_id] using hid
        · next hany =>
            rcases List.mem_append.1 hy with h1 | h1
            · refine ⟨h1, ?_⟩
              intro hcontra
              exact hany (List.any_eq_true.2 ⟨y, h1, by simp [markStuck_id, hcontra]⟩)
            · have : y = markStuck j := by simpa using h1
              rw [this] at hyproc
              exact absurd hyproc (by simp [markStuck])
      rcases hcov y hykeep.1 hyproc with ⟨j'', hj'', hid2⟩
      rcases List.mem_cons.1 hj'' with rfl | hmem
      · exact absurd hid2.symm hykeep.2
      · exact ⟨j'', hmem, hid2⟩

/-- The swept store contains no `processing` record. -/
theorem cleanup_no_processing (store : List GeneratedImage) :
    ∀ x ∈ cleanupStuckJobs store, x.status ≠ GenerationStatus.processing := by
  apply foldl_save_no_processing
  intro x hx hproc
  exact ⟨x, List.mem_filter.2 ⟨mem_getAllImages.2 hx, by simp [hproc]⟩, rfl⟩

/-- Records of a store with pairwise-distinct ids are determined by their
id. -/
theorem id_inj_of_nodup {store : List GeneratedImage}
    (hnd : (store.map GeneratedImage.id).Nodup) {x y : GeneratedImage}
    (hx : x ∈ store) (hy : y ∈ store) (hxy : x.id = y.id) : x = y :=
  List.inj_on_of_nodup_map hnd hx hy hxy

/-- On a store with pairwise-distinct ids, folding the recovery overwrite
over a duplicate-free list of `processing` store records rewrites exactly
the records with a folded id, in place. -/
theorem foldl_save_eq_map :
    ∀ (l s : List GeneratedImage),
      (s.map GeneratedImage.id).Nodup →
      (∀ j ∈ l, j ∈ s ∧ j.status = GenerationStatus.processing) →
      (l.map GeneratedImage.id).Nodup →
      l.foldl (fun acc job => saveImage acc (markStuck job)) s
        = s.map (fun x =>
            if x.id ∈ l.map GeneratedImage.id then markStuck x else x)
  | [], s, _, _, _ => by simp
  | j :: t, s, hnd, hsub, hlnd => by
      have hjs : j ∈ s := (hsub j (List.mem_cons_self _ _)).1
      have hany : (s.any (fun z => z.id == (markStuck j).id)) = true :=
        List.any_eq_true.2 ⟨j, hjs, by simp [markStuck_id]⟩
      have hcons : (j.id ∉ t.map GeneratedImage.id) ∧ (t.map GeneratedImage.id).Nodup := by
        have h := hlnd
        rw [List.map_cons, List.nodup_cons] at h
        exact h
      have hjt : j.id ∉ t.map GeneratedImage.id := hcons.1
      have hstep : saveImage s (markStuck j)
          = s.map (fun x => if x.id = j.id then markStuck x else x) := by
        unfold saveImage
        rw [if_pos hany]
        refine List.map_congr_left ?_
        intro x hxs
        by_cases hid : x.id = j.id
        · have hxj : x = j := id_inj_of_nodup hnd hxs hjs hid
          subst hxj
          simp [markStuck_id]
        · simp [markStuck_id, hid]
      have hids : (s.map (fun x => if x.id = j.id then markStuck x else x)).map
          GeneratedImage.id = s.map GeneratedImage.id := by
        rw [List.map_map]
        refine List.map_congr_left ?_
        intro x _
        by_cases hid : x.id = j.id <;> simp [Function.comp, hid, markStuck_id]
      have hnd' : ((s.map (fun x => if x.id = j.id then markStuck x else x)).map
          GeneratedImage.id).Nodup := by
        rw [hids]; exact hnd
      have hsub' : ∀ j' ∈ t,
          j' ∈ s.map (fun x => if x.id = j.id then markStuck x else x) ∧
          j'.status = GenerationStatus.processing := by
        intro j' hj'
        have hj's : j' ∈ s := (hsub j' (List.mem_cons_of_mem _ hj')).1
        have hj'id : j'.id ≠ j.id := by
          intro hcontra
          exact hjt (hcontra ▸ List.mem_map_of_mem GeneratedImage.id hj')
        refine ⟨List.mem_map.2 ⟨j', hj's, by rw [if_neg hj'id]⟩,
          (hsub j' (List.mem_cons_of_mem _ hj')).2⟩
      have htnd : (t.map GeneratedImage.id).Nodup := hcons.2
      have ih := foldl_save_eq_map t
        (s.map (fun x => if x.id = j.id then markStuck x else x)) hnd' hsub' htnd
      calc (j :: t).foldl (fun acc job => saveImage acc (markStuck job)) s
          = t.foldl (fun acc job => saveImage acc (markStuck job))
              (saveImage s (markStuck j)) := rfl
        _ = t.foldl (fun acc job => saveImage acc (markStuck job))
              (s.map (fun x => if x.id = j.id then markStuck x else x)) := by
                rw [hstep]
        _ = (s.map (fun x => if x.id = j.id then markStuck x else x)).map
              (fun x => if x.id ∈ t.map GeneratedImage.id then markStuck x else x) :=
                ih
        _ = s.map (fun x =>
              if x.id ∈ (j :: t).map GeneratedImage.id then markStuck x else x) := by
                rw [List.map_map]
                refine List.map_congr_left ?_
                intro x _
                simp only [Function.comp_apply]
                by_cases hid : x.id = j.id
                · rw [if_pos hid]
                  have hnotin : (markStuck x).id ∉ t.map GeneratedImage.id := by
                    rw [markStuck_id, hid]
                    exact hjt
                  rw [if_neg hnotin]
                  have hmem : x.id ∈ (j :: t).map GeneratedImage.id := by
                    rw [List.map_cons, hid]
                    exact List.mem_cons_self _ _
                  rw [if_pos hmem]
                · rw [if_neg hid]
                  by_cases hmem : x.id ∈ t.map GeneratedImage.id
                  · rw [if_pos hmem]
                    have hmem' : x.id ∈ (j :: t).map GeneratedImage.id := by
                      rw [List.map_cons]
                      exact List.mem_cons_of_mem _ hmem
                    rw [if_pos hmem']
                  · rw [if_neg hmem]
                    have hnot : x.id ∉ (j :: t).map GeneratedImage.id := by
                      rw [List.map_cons]
                      intro hc
                      rcases List.mem_cons.1 hc with hc | hc
                      · exact hid hc
                      · exact hmem hc
                    rw [if_neg hnot]

/-- On a store with pairwise-distinct ids, the recovery sweep rewrites
exactly the `processing` records, in place. -/
theorem cleanup_eq_map (store : List GeneratedImage)
    (hnd : (store.map GeneratedImage.id).Nodup) :
    cleanupStuckJobs store
      = store.map (fun x =>
          if x.status = GenerationStatus.processing then markStuck x else x) := by
  have hperm : List.Perm (stuckJobs store)
      (store.filter (fun img => img.status == GenerationStatus.processing)) :=
    (getAllImages_perm store).filter _
  have hsub : ∀ j ∈ stuckJobs store,
      j ∈ store ∧ j.status = GenerationStatus.processing := by
    intro j hj
    rcases List.mem_filter.1 hj with ⟨hmem, hproc⟩
    exact ⟨mem_getAllImages.1 hmem, by simpa using hproc⟩
  have hlnd : ((stuckJobs store).map GeneratedImage.id).Nodup := by
    have hfil : ((store.filter
        (fun img => img.status == GenerationStatus.processing)).map
          GeneratedImage.id).Nodup :=
      ((List.filter_sublist _).map GeneratedImage.id).nodup hnd
    exact ((hperm.map GeneratedImage.id).nodup_iff).2 hfil
  rw [cleanupStuckJobs, foldl_save_eq_map (stuckJobs store) store hnd hsub hlnd]
  refine List.map_congr_left ?_
  intro x hx
  by_cases hproc : x.status = GenerationStatus.processing
  · have hmem : x.id ∈ (stuckJobs store).map GeneratedImage.id := by
      refine List.mem_map_of_mem GeneratedImage.id ?_
      exact List.mem_filter.2 ⟨mem_getAllImages.2 hx, by simp [hproc]⟩
    rw [if_pos hmem, if_pos hproc]
  · have hnot : x.id ∉ (stuckJobs store).map GeneratedImage.id := by
      intro hc
      rcases List.mem_map.1 hc with ⟨j, hj, hidj⟩
      rcases hsub j hj with ⟨hjs, hjproc⟩
      have : j = x := id_inj_of_nodup hnd hjs hx hidj
      exact hproc (this ▸ hjproc)
    rw [if_neg hnot, if_neg hproc]

/-! Claim theorems. -/

/-- C1 (counterexample): the recovery sweep writes the error message
"Interrupted by page reload", not "Interrupted by restart" as the claim
states: on a store holding one processing job the swept record carries the
page-reload message, which differs from the claimed string. -/
theorem cleanup_message_is_page_reload :
    (cleanupStuckJobs
        [{ id := "x1", characterId := "c1", imageData := none, prompt := "p",
           createdAt := 5, status := GenerationStatus.processing,
           errorMessage := none }]).map GeneratedImage.errorMessage
      = [some "Interrupted by page reload"] ∧
    (some "Interrupted by page reload" : Option String)
      ≠ some "Interrupted by restart" :=
  ⟨by rfl, by decide⟩

/-- C1 (amended): on every stored job collection with pairwise-distinct ids,
the recovery sweep `cleanupStuckJobs` overwrites every job whose status is
`processing` with status `failed` and error message "Interrupted by page
reload", preserving `id`, `characterId`, `imageData`, `prompt` and
`createdAt`, and leaves every job whose status is not `processing`
completely unchanged. -/
theorem cleanupStuckJobs_overwrites_processing (store : List GeneratedImage)
    (hnd : (store.map GeneratedImage.id).Nodup) :
    cleanupStuckJobs store = store.map (fun j =>
      if j.status = GenerationStatus.processing then
        { id := j.id, characterId := j.characterId, imageData := j.imageData,
          prompt := j.prompt, createdAt := j.createdAt,
          status := GenerationStatus.failed,
          errorMessage := some "Interrupted by page reload" }
      else j) :=
  cleanup_eq_map store hnd

/-- C1 (witness): the amended sweep theorem evaluated on a concrete
single-job store with a processing job. -/
theorem cleanupStuckJobs_overwrites_processing_witness :
    cleanupStuckJobs
        [{ id := "w1", characterId := "c1", imageData := none, prompt := "p",
           createdAt := 3, status := GenerationStatus.processing,
           errorMessage := none }]
      = [{ id := "w1", characterId := "c1", imageData := none, prompt := "p",
           createdAt := 3, status := GenerationStatus.failed,
           errorMessage := some "Interrupted by page reload" }] := by
  rw [cleanupStuckJobs_overwrites_processing _ (by decide)]
  rfl

/-- C9: the recovery sweep is idempotent — running `cleanupStuckJobs` twice
in succession yields exactly the store produced by running it once, because
the first run leaves no `processing` job for the second run to convert. -/
theorem cleanupStuckJobs_idempotent (store : List GeneratedImage) :
    cleanupStuckJobs (cleanupStuckJobs store) = cleanupStuckJobs store := by
  have hstuck : stuckJobs (cleanupStuckJobs store) = [] := by
    rw [stuckJobs, List.filter_eq_nil_iff]
    intro a ha
    have hmem : a ∈ cleanupStuckJobs store := mem_getAllImages.1 ha
    have := cleanup_no_processing store a hmem
    simpa using this
  rw [cleanupStuckJobs, hstuck]
  rfl

/-- C2 (counterexample): the recovery sweep is a terminal write (it moves a
processing job to `failed`) yet it keeps the job's original `createdAt` (5
here) instead of replacing it with the time of the write — the sweep takes
no clock input at all. -/
theorem cleanup_keeps_createdAt :
    (cleanupStuckJobs
        [{ id := "x2", characterId := "c2", imageData := none, prompt := "p",
           createdAt := 5, status := GenerationStatus.processing,
           errorMessage := none }]).map (fun j => (j.status, j.createdAt))
      = [(GenerationStatus.failed, 5)] := by
  rfl

/-- C2 (amended): `createdAt` is set to the current time at job creation and
is overwritten with the write time by both pipeline terminal writes (success
and failure), but the startup recovery sweep preserves each swept job's
original `createdAt` (every swept record keeps the `createdAt` and `id` of an
original record). -/
theorem createdAt_at_terminal_writes (jobId : String) (char : Character)
    (promptStage : Except JsValue String)
    (imageStage : String → Except JsValue String) (now : Nat)
    (store : List GeneratedImage) :
    (processJob jobId char promptStage imageStage now).record.createdAt = now ∧
    (newJobRecord jobId char.id now).createdAt = now ∧
    ∀ x ∈ cleanupStuckJobs store,
      ∃ j ∈ store, x.createdAt = j.createdAt ∧ x.id = j.id := by
  refine ⟨?_, rfl, ?_⟩
  · rcases promptStage with e | prompt
    · rfl
    · by_cases h : (prompt == "") = true
      · simp [processJob, h, failedRecord]
      · rcases his : imageStage prompt with e | img <;>
          simp [processJob, h, his, failedRecord]
  · intro x hx
    rcases mem_cleanup hx with h | ⟨j, hj, _, rfl⟩
    · exact ⟨x, h, rfl, rfl⟩
    · exact ⟨j, hj, markStuck_createdAt j, markStuck_id j⟩

/-- C2 (witness): the amended theorem evaluated at a concrete pipeline run
and a concrete one-job store. -/
theorem createdAt_at_terminal_writes_witness :
    (processJob "j"
        { id := "c", name := "n", hairColor := "h", eyeColor := "e",
          skinColor := "s", avatarImage := none }
        (Except.ok "P") (fun _ => Except.ok "IMG") 42).record.createdAt = 42 ∧
    ∃ j ∈ [({ id := "w2", characterId := "c2", imageData := none, prompt := "p",
              createdAt := 5, status := GenerationStatus.processing,
              errorMessage := none } : GeneratedImage)],
      (markStuck
        { id := "w2", characterId := "c2", imageData := none, prompt := "p",
          createdAt := 5, status := GenerationStatus.processing,
          errorMessage := none }).createdAt = j.createdAt ∧
      (markStuck
        { id := "w2", characterId := "c2", imageData := none, prompt := "p",
          createdAt := 5, status := GenerationStatus.processing,
          errorMessage := none }).id = j.id := by
  have h := createdAt_at_terminal_writes "j"
    { id := "c", name := "n", hairColor := "h", eyeColor := "e",
      skinColor := "s", avatarImage := none }
    (Except.ok "P") (fun _ => Except.ok "IMG") 42
    [{ id := "w2", characterId := "c2", imageData := none, prompt := "p",
       createdAt := 5, status := GenerationStatus.processing,
       errorMessage := none }]
  exact ⟨h.1, h.2.2 _ (by decide)⟩

/-- C3: every job-record write preserves the invariant that a record is
`completed` iff its image payload is present and `failed` iff its error
message is present — the creation record of submit satisfies it, every
terminal record written by the pipeline satisfies it, and the recovery sweep
maps a store of invariant-satisfying records to a store of
invariant-satisfying records. -/
theorem job_record_invariant :
    (∀ newJobId characterId now, JobInvariant (newJobRecord newJobId characterId now)) ∧
    (∀ jobId char promptStage imageStage now,
        JobInvariant (processJob jobId char promptStage imageStage now).record) ∧
    (∀ store : List GeneratedImage, (∀ j ∈ store, JobInvariant j) →
        ∀ x ∈ cleanupStuckJobs store, JobInvariant x) := by
  refine ⟨?_, ?_, ?_⟩
  · intro a b now
    simp [JobInvariant, newJobRecord]
  · intro jobId char promptStage imageStage now
    rcases promptStage with e | prompt
    · simp [processJob, JobInvariant, failedRecord]
    · by_cases h : (prompt == "") = true
      · simp [processJob, h, JobInvariant, failedRecord]
      · rcases his : imageStage prompt with e | img <;>
          simp [processJob, h, his, JobInvariant, failedRecord]
  · intro store hstore x hx
    rcases mem_cleanup hx with h | ⟨j, hj, hproc, rfl⟩
    · exact hstore x h
    · have hinv := hstore j hj
      have himg : j.imageData.isSome = false := by
        cases h2 : j.imageData.isSome
        · rfl
        · have := hinv.1.mpr h2
          rw [hproc] at this
          exact absurd this (by decide)
      constructor
      · simp [markStuck, himg]
      · simp [markStuck]

/-- C3 (witness): the sweep clause of the invariant theorem evaluated on a
concrete store holding one invariant-satisfying processing job. -/
theorem job_record_invariant_witness :
    JobInvariant
      { id := "iw", characterId := "c", imageData := none, prompt := "p",
        createdAt := 1, status := GenerationStatus.failed,
        errorMessage := some "Interrupted by page reload" } := by
  have h := job_record_invariant.2.2
    [{ id := "iw", characterId := "c", imageData := none, prompt := "p",
       createdAt := 1, status := GenerationStatus.processing,
       errorMessage := none }] (by decide)
  exact h _ (by decide)

/-- Helper for C4: against an always-failing operation, the retry combinator
starting at attempt `i` with `n` retries left and current delay `d` makes
`n + 1` attempts, waits `d, 2d, 4d, ...` between them, and surfaces the error
of the last attempt. -/
theorem withRetry_allFail {α : Type} (errF : Nat → JsValue) :
    ∀ (n i d : Nat),
      withRetry (α := α) (fun k => Except.error (errF k)) i n d
        = (Except.error (errF (i + n)), n + 1,
           (List.range n).map (fun k => d * 2 ^ k))
  | 0, i, d => by simp [withRetry]
  | n + 1, i, d => by
      have ih := withRetry_allFail (α := α) errF n (i + 1) (d * 2)
      have hidx : i + 1 + n = i + (n + 1) := by omega
      have hfun : (fun k : Nat => d * 2 * 2 ^ k) = (fun k : Nat => d * 2 ^ (k + 1)) := by
        funext k
        rw [pow_succ]
        ring
      have hlist : d :: (List.range n).map (fun k => d * 2 * 2 ^ k)
          = (List.range (n + 1)).map (fun k => d * 2 ^ k) := by
        rw [List.range_succ_eq_map, List.map_cons, List.map_map, hfun]
        simp [Function.comp]
      calc withRetry (α := α) (fun k => Except.error (errF k)) i (n + 1) d
          = ((withRetry (α := α) (fun k => Except.error (errF k)) (i + 1) n (d * 2)).1,
             (withRetry (α := α) (fun k => Except.error (errF k)) (i + 1) n (d * 2)).2.1 + 1,
             d :: (withRetry (α := α) (fun k => Except.error (errF k)) (i + 1) n (d * 2)).2.2) :=
              rfl
        _ = (Except.error (errF (i + 1 + n)), n + 1 + 1,
             d :: (List.range n).map (fun k => d * 2 * 2 ^ k)) := by
              rw [ih]
        _ = (Except.error (errF (i + (n + 1))), (n + 1) + 1,
             (List.range (n + 1)).map (fun k => d * 2 ^ k)) := by
              rw [hidx, hlist]

/-- C4: the retry combinator with maximum retry count `N` and initial delay
`D`, run against an always-failing operation, makes exactly `N + 1` attempts,
waits the backoff sequence `D, 2D, 4D, ...` between them, and surfaces the
error of the last attempt; in particular with the prompt-synthesis policy
(retries = 2, delay = 1000 ms) it makes exactly 3 attempts with waits of
1000 ms then 2000 ms and fails with the error of the third attempt. -/
theorem withRetry_exhausts_with_backoff {α : Type} (N D : Nat) (errF : Nat → JsValue) :
    withRetry (α := α) (fun k => Except.error (errF k)) 0 N D
      = (Except.error (errF N), N + 1, (List.range N).map (fun k => D * 2 ^ k)) ∧
    withRetry (α := α) (fun k => Except.error (errF k)) 0
        createCharacterPromptRetries createCharacterPromptDelayMs
      = (Except.error (errF 2), 3, [1000, 2000]) := by
  constructor
  · simpa using withRetry_allFail (α := α) errF N 0 D
  · show withRetry (α := α) (fun k => Except.error (errF k)) 0 2 1000 = _
    rw [withRetry_allFail (α := α) errF 2 0 1000]
    rfl

/-- C5: when the prompt-synthesis stage yields the empty string, the
pipeline writes a failed record whose error message is the no-description
message (which contains "No description"), and the image-synthesis stage is
never invoked. -/
theorem empty_prompt_fails_without_stage2 (jobId : String) (char : Character)
    (imageStage : String → Except JsValue String) (now : Nat) :
    (processJob jobId char (Except.ok "") imageStage now).record.status
        = GenerationStatus.failed ∧
    (processJob jobId char (Except.ok "") imageStage now).record.errorMessage
        = some noDescriptionError ∧
    List.IsInfix "No description".toList noDescriptionError.toList ∧
    (processJob jobId char (Except.ok "") imageStage now).stage2Called = false :=
  ⟨rfl, rfl, ⟨"Analysis failed: ".toList, " generated.".toList, by decide⟩, rfl⟩

/-- C6 (counterexample): for a submit with a valid source image and a valid
selected character, the creation write updates the in-memory collection
before the store write is initiated — the store-before-memory discipline
claimed for every orchestrator write fails on the creation write. -/
theorem submit_memory_update_first :
    ¬ storeBeforeMem
        (handleGenerate
          { characters := [{ id := "char-1", name := "Sarah", hairColor := "brown",
                             eyeColor := "green", skinColor := "fair",
                             avatarImage := none }],
            selectedCharacterId := some "char-1", sourceImage := some "img",
            generatedImages := [], store := [] } "job-1" 7).2.1 "job-1" := by
  decide

/-- C6 (amended): both terminal overwrites of the pipeline persist to the
store first and only then update the in-memory collection, while the
creation write in submit updates the in-memory collection first and then
initiates the store write (or performs no write at all when the guards
reject the submit). -/
theorem terminal_writes_store_first (jobId : String) (char : Character)
    (promptStage : Except JsValue String)
    (imageStage : String → Except JsValue String) (now : Nat)
    (st : AppState) (newJobId : String) :
    (processJob jobId char promptStage imageStage now).events
        = [Event.storeWrite jobId, Event.memUpdate jobId] ∧
    storeBeforeMem (processJob jobId char promptStage imageStage now).events jobId ∧
    ((handleGenerate st newJobId now).2.1 = [] ∨
      (handleGenerate st newJobId now).2.1
        = [Event.memUpdate newJobId, Event.storeWrite newJobId]) := by
  have hev : (processJob jobId char promptStage imageStage now).events
      = [Event.storeWrite jobId, Event.memUpdate jobId] := by
    rcases promptStage with e | prompt
    · rfl
    · by_cases h : (prompt == "") = true
      · simp [processJob, h]
      · rcases his : imageStage prompt with e | img <;> simp [processJob, h, his]
  refine ⟨hev, ?_, ?_⟩
  · rw [hev]
    intro i hi
    fin_cases i
    · exact absurd hi (by simp)
    · exact ⟨⟨0, Nat.succ_pos 1⟩, Nat.zero_le _, rfl⟩
  · by_cases hg : (!(truthyStr st.sourceImage) || !(truthyStr st.selectedCharacterId))
        = true
    · left
      simp [handleGenerate, hg]
    · rcases hf : st.characters.find?
          (fun c => c.id == st.selectedCharacterId.getD "") with _ | ch
      · left
        simp [handleGenerate, hg, hf]
      · right
        simp [handleGenerate, hg, hf]

/-- C7: the timeout race returns the operation's own result unchanged when
it settles by the deadline, replaces it with the caller-supplied timeout
error when the deadline elapses first (discarding the operation's eventual
result), and never settles later than the deadline. -/
theorem withTimeout_races_deadline {α : Type} (op : AsyncOp α) (ms : Nat)
    (msg : String) :
    (op.settleTime ≤ ms → withTimeout op ms msg = op) ∧
    (ms < op.settleTime →
      withTimeout op ms msg
        = { settleTime := ms, result := Except.error (JsValue.errorInst msg) }) ∧
    (withTimeout op ms msg).settleTime ≤ ms := by
  refine ⟨?_, ?_, ?_⟩
  · intro h
    simp [withTimeout, h]
  · intro h
    have hn : ¬ op.settleTime ≤ ms := by omega
    simp [withTimeout, hn]
  · by_cases h : op.settleTime ≤ ms <;> simp [withTimeout, h]

/-- C7 (witness): the timeout theorem evaluated on a concrete slow operation
(settles at 10, deadline 3: timeout error wins) and a concrete fast
operation (settles at 2, deadline 3: result passes through). -/
theorem withTimeout_races_deadline_witness :
    withTimeout ({ settleTime := 10, result := Except.ok 0 } : AsyncOp Nat) 3 "late"
      = { settleTime := 3, result := Except.error (JsValue.errorInst "late") } ∧
    withTimeout ({ settleTime := 2, result := Except.ok 5 } : AsyncOp Nat) 3 "late"
      = { settleTime := 2, result := Except.ok 5 } :=
  ⟨(withTimeout_races_deadline { settleTime := 10, result := Except.ok 0 } 3
      "late").2.1 (by decide),
   (withTimeout_races_deadline { settleTime := 2, result := Except.ok 5 } 3
      "late").1 (by decide)⟩

/-- C8 (counterexample): an object carrying the nested `error.message`
field with the empty string as its value is normalized to its JSON
rendering, not to that (empty) nested message — the claimed clause for
objects carrying a nested `error.message` fails on falsy messages. -/
theorem getErrorMessage_empty_nested_message :
    getErrorMessage (JsValue.objVal (some "") none "stringified") = "stringified" ∧
    ("stringified" : String) ≠ "" :=
  ⟨rfl, by decide⟩

/-- C8 (amended): error-message normalization returns a native error
object's own message; otherwise, for an object whose nested `error.message`
is present and non-empty (truthy) it returns that nested message; otherwise,
for an object whose own `message` field is present and non-empty it returns
that message; in every remaining case it returns the JSON string
representation of the input. -/
theorem getErrorMessage_shapes :
    (∀ m, getErrorMessage (JsValue.errorInst m) = m) ∧
    (∀ em m j, em ≠ "" →
        getErrorMessage (JsValue.objVal (some em) m j) = em) ∧
    (∀ em m j, (em = none ∨ em = some "") → m ≠ "" →
        getErrorMessage (JsValue.objVal em (some m) j) = m) ∧
    (∀ em m j, (em = none ∨ em = some "") → (m = none ∨ m = some "") →
        getErrorMessage (JsValue.objVal em m j) = j) ∧
    (∀ j, getErrorMessage (JsValue.prim j) = j) := by
  refine ⟨fun m => rfl, ?_, ?_, ?_, fun j => rfl⟩
  · intro em m j h
    simp [getErrorMessage, truthyStr, h]
  · intro em m j hem h
    rcases hem with rfl | rfl <;> simp [getErrorMessage, truthyStr, h]
  · intro em m j hem hm
    rcases hem with rfl | rfl <;> rcases hm with rfl | rfl <;>
      simp [getErrorMessage, truthyStr]

/-- C8 (witness): the normalization theorem evaluated on a concrete truthy
nested message, a concrete truthy own message, and a concrete object with
neither. -/
theorem getErrorMessage_shapes_witness :
    getErrorMessage (JsValue.objVal (some "boom") none "json-a") = "boom" ∧
    getErrorMessage (JsValue.objVal none (some "msg") "json-b") = "msg" ∧
    getErrorMessage (JsValue.objVal none none "json-c") = "json-c" :=
  ⟨getErrorMessage_shapes.2.1 "boom" none "json-a" (by decide),
   getErrorMessage_shapes.2.2.1 none "msg" "json-b" (Or.inl rfl) (by decide),
   getErrorMessage_shapes.2.2.2.1 none none "json-c" (Or.inl rfl) (Or.inl rfl)⟩

/-- C10: when submit is invoked with a null (falsy) source image, with no
selected character, or with a selected character id matching no stored
character, it returns with the state unchanged, an empty effect trace (no
store write, no in-memory update) and no launched job. -/
theorem submit_guard_creates_no_job (st : AppState) (newJobId : String) (now : Nat)
    (h : st.sourceImage = none ∨ st.selectedCharacterId = none ∨
        st.characters.find? (fun c => c.id == st.selectedCharacterId.getD "")
          = none) :
    handleGenerate st newJobId now = (st, [], none) := by
  unfold handleGenerate
  rcases h with h | h | h
  · simp [h, truthyStr]
  · simp [h, truthyStr]
  · by_cases hg : (!(truthyStr st.sourceImage) || !(truthyStr st.selectedCharacterId))
        = true
    · simp [hg]
    · simp [hg, h]

/-- C10 (witness): the guard theorem evaluated on a concrete state with no
source image and no selection. -/
theorem submit_guard_creates_no_job_witness :
    handleGenerate
        { characters := [], selectedCharacterId := none, sourceImage := none,
          generatedImages := [], store := [] } "j0" 0
      = ({ characters := [], selectedCharacterId := none, sourceImage := none,
           generatedImages := [], store := [] }, [], none) :=
  submit_guard_creates_no_job _ "j0" 0 (Or.inl rfl)

end PersonaMorph
